import Mathlib

/-!
Verification of the federated-learning training core (`train_federated.py`)
and the prediction-time model manager (`model_loader.py`) of the SuperPage
repository, as a shallow embedding in Lean 4.  Machine floats are modelled
by exact rationals; the sigmoid activation is kept abstract as a function
parameter; file contents are modelled by a path-indexed store.
-/

namespace SuperPage

/-! ### Rational vector primitives (numpy array operations used by the code) -/

/-- Elementwise addition of two vectors (`numpy` `+=` on same-shape arrays). -/
def vadd (a b : List ℚ) : List ℚ := List.zipWith (fun x y => x + y) a b

/-- Scalar multiplication of a vector (`weight * client_params[param_idx]`). -/
def vsmul (c : ℚ) (v : List ℚ) : List ℚ := v.map (fun x => c * x)

/-- `np.zeros_like` on a vector. -/
def vzeros (v : List ℚ) : List ℚ := v.map (fun _ => 0)

theorem vadd_length (a b : List ℚ) : (vadd a b).length = min a.length b.length := by
  simp [vadd]

theorem vsmul_length (c : ℚ) (v : List ℚ) : (vsmul c v).length = v.length := by
  simp [vsmul]

theorem vzeros_length (v : List ℚ) : (vzeros v).length = v.length := by
  simp [vzeros]

theorem vadd_getD (a b : List ℚ) (j : ℕ) (ha : j < a.length) (hb : j < b.length) :
    (vadd a b).getD j 0 = a.getD j 0 + b.getD j 0 := by
  induction a generalizing b j with
  | nil => simp at ha
  | cons x xs ih =>
    cases b with
    | nil => simp at hb
    | cons y ys =>
      cases j with
      | zero => simp [vadd]
      | succ n =>
        simp only [List.length_cons, Nat.succ_lt_succ_iff] at ha hb
        simpa [vadd, List.getD] using ih ys n ha hb

theorem vsmul_getD (c : ℚ) (v : List ℚ) (j : ℕ) (hj : j < v.length) :
    (vsmul c v).getD j 0 = c * v.getD j 0 := by
  induction v generalizing j with
  | nil => simp at hj
  | cons x xs ih =>
    cases j with
    | zero => simp [vsmul]
    | succ n =>
      simp only [List.length_cons, Nat.succ_lt_succ_iff] at hj
      simpa [vsmul, List.getD] using ih n hj

theorem vzeros_getD (v : List ℚ) (j : ℕ) : (vzeros v).getD j 0 = 0 := by
  induction v generalizing j with
  | nil => simp [vzeros]
  | cons x xs ih =>
    cases j with
    | zero => simp [vzeros]
    | succ n => simpa [vzeros, List.getD] using ih n

/-! ### FedAvg aggregation (`run_federated_learning`, lines 535-549)

The inner aggregation loop of `run_federated_learning`:

    total_examples = sum(client_sizes)
    for param_idx in range(len(global_params)):
        weighted_sum = np.zeros_like(global_params[param_idx])
        for client_idx, client_params in enumerate(client_updates):
            weight = client_sizes[client_idx] / total_examples
            weighted_sum += weight * client_params[param_idx]
        aggregated_params.append(weighted_sum)

Each parameter tensor is modelled as a flat vector of rationals. -/

/-- One round of FedAvg parameter aggregation, as written in
`run_federated_learning`: for each parameter position, a fold accumulating
`(n_i / total) * params_i[param_idx]` into a zero vector. -/
def aggregate_round (global_params : List (List ℚ)) (client_updates : List (List (List ℚ)))
    (client_sizes : List ℕ) : List (List ℚ) :=
  let total : ℚ := (client_sizes.map (fun n => (n : ℚ))).sum
  (List.range global_params.length).map (fun param_idx =>
    (client_updates.zip client_sizes).foldl
      (fun acc p => vadd acc (vsmul (((p.2 : ℚ)) / total) (p.1.getD param_idx [])))
      (vzeros (global_params.getD param_idx [])))

/-- Generic characterization of the weighted accumulation fold: folding
`acc += w b * t b` over a list and reading entry `j` yields the starting
entry plus the weighted sum of entries. -/
theorem weighted_fold_getD {β : Type} (L : List β) (t : β → List ℚ) (w : β → ℚ)
    (acc : List ℚ) (j : ℕ) (hlen : ∀ b ∈ L, (t b).length = acc.length)
    (hj : j < acc.length) :
    (L.foldl (fun a b => vadd a (vsmul (w b) (t b))) acc).getD j 0 =
      acc.getD j 0 + (L.map (fun b => w b * (t b).getD j 0)).sum := by
  induction L generalizing acc with
  | nil => simp
  | cons b bs ih =>
    have hb : (t b).length = acc.length := hlen b (List.mem_cons_self b bs)
    have hacc' : (vadd acc (vsmul (w b) (t b))).length = acc.length := by
      rw [vadd_length, vsmul_length, hb, Nat.min_self]
    have hlen' : ∀ c ∈ bs, (t c).length = (vadd acc (vsmul (w b) (t b))).length := by
      intro c hc
      rw [hacc']
      exact hlen c (List.mem_cons_of_mem b hc)
    have hj' : j < (vadd acc (vsmul (w b) (t b))).length := by rw [hacc']; exact hj
    have := ih (vadd acc (vsmul (w b) (t b))) hlen' hj'
    rw [List.foldl_cons, this, vadd_getD acc _ j hj (by rw [vsmul_length, hb]; exact hj),
      vsmul_getD (w b) (t b) j (by rw [hb]; exact hj)]
    simp [List.map_cons, List.sum_cons]
    ring

/-- Reading entry `i` of `(List.range n).map f` with `i < n` gives `f i`. -/
theorem getD_map_range {α : Type} (n : ℕ) (f : ℕ → α) (i : ℕ) (d : α) (hi : i < n) :
    ((List.range n).map f).getD i d = f i := by
  rw [List.getD_eq_getElem _ _ (by simpa using hi)]
  simp

/-- C1: per-round FedAvg aggregation.  For clients with updates
`params_1..params_k` and sample counts `n_1..n_k`, every entry of every
aggregated tensor equals `sum_i (n_i / total_n) * params_i[position]`. -/
theorem aggregate_round_fedavg (global_params : List (List ℚ))
    (client_updates : List (List (List ℚ))) (client_sizes : List ℕ)
    (hcount : client_updates.length = client_sizes.length)
    (param_idx j : ℕ) (hidx : param_idx < global_params.length)
    (hshape : ∀ u ∈ client_updates,
      (u.getD param_idx []).length = (global_params.getD param_idx []).length)
    (hj : j < (global_params.getD param_idx []).length) :
    ((aggregate_round global_params client_updates client_sizes).getD param_idx []).getD j 0 =
      ((client_updates.zip client_sizes).map
        (fun p => ((p.2 : ℚ) / ((client_sizes.map (fun n => (n : ℚ))).sum)) *
          (p.1.getD param_idx []).getD j 0)).sum := by
  unfold aggregate_round
  rw [getD_map_range _ _ _ _ hidx]
  rw [weighted_fold_getD (client_updates.zip client_sizes)
      (fun p => p.1.getD param_idx [])
      (fun p => (p.2 : ℚ) / ((client_sizes.map (fun n => (n : ℚ))).sum))
      (vzeros (global_params.getD param_idx [])) j
      (fun b hb => by
        rw [vzeros_length]
        exact hshape b.1 (List.mem_zip hb).1)
      (by rw [vzeros_length]; exact hj)]
  rw [vzeros_getD, zero_add]

/-- C1 witness: two clients with sample counts 30 and 70 returning constant
tensors 1.0 and 2.0 aggregate to `0.3 * 1.0 + 0.7 * 2.0 = 1.7`. -/
theorem aggregate_round_fedavg_witness :
    ([[[(1 : ℚ)]], [[2]]] : List (List (List ℚ))).length = ([30, 70] : List ℕ).length ∧
      (0 : ℕ) < ([[(0 : ℚ)]] : List (List ℚ)).length ∧
      ((aggregate_round [[(0 : ℚ)]] [[[1]], [[2]]] [30, 70]).getD 0 []).getD 0 0 =
        (([[[(1 : ℚ)]], [[2]]].zip [30, 70]).map
          (fun p => ((p.2 : ℚ) / ((([30, 70] : List ℕ).map (fun n => (n : ℚ))).sum)) *
            (p.1.getD 0 []).getD 0 0)).sum ∧
      ((aggregate_round [[(0 : ℚ)]] [[[1]], [[2]]] [30, 70]).getD 0 []).getD 0 0 = 17 / 10 :=
  ⟨rfl, by decide,
    aggregate_round_fedavg [[(0 : ℚ)]] [[[1]], [[2]]] [30, 70] rfl 0 0 (by decide)
      (by decide) (by decide),
    by norm_num [aggregate_round, vadd, vsmul, vzeros, List.range_succ]⟩

/-! ### Data partitioning (`DataProcessor.create_federated_splits`, lines 145-182)

The Python computes `client_size = len(X) // num_clients` and slices the
shuffled index array into contiguous blocks `indices[start:end]`; the last
client receives `indices[start:len(X)]`.  `np.random.shuffle` is modelled by
quantifying over an arbitrary permutation of the index range.  A zero client
count raises `ZeroDivisionError` from the floor division; no other
validation of `num_clients` exists in the code. -/

/-- `DataProcessor.create_federated_splits` applied to the shuffled
sample list: slices it into `num_clients` contiguous blocks, where
`samples.length / num_clients` is the Python `client_size`, block `i`
spans `start_idx = i * client_size` to `end_idx = (i+1) * client_size`,
and the last block extends to `len(X)`. -/
def create_federated_splits {α : Type} (samples : List α) (num_clients : ℕ) :
    Except String (List (List α)) :=
  if num_clients = 0 then .error "ZeroDivisionError: integer division or modulo by zero"
  else .ok ((List.range num_clients).map (fun i =>
    (samples.drop (i * (samples.length / num_clients))).take
      ((if i = num_clients - 1 then samples.length
        else (i + 1) * (samples.length / num_clients)) -
        i * (samples.length / num_clients))))

/-- Joining the first `m` contiguous blocks of width `cs` of a list gives
its first `m * cs` elements. -/
theorem blocks_flatten {α : Type} (m cs : ℕ) (xs : List α) :
    ((List.range m).map (fun i => (xs.drop (i * cs)).take cs)).flatten = xs.take (m * cs) := by
  induction m with
  | zero => simp
  | succ n ih =>
    rw [List.range_succ, List.map_append, List.flatten_append, ih]
    rw [Nat.succ_mul, List.take_add]
    simp

/-- The concatenation of the shards produced by `create_federated_splits`
is exactly the input list, provided `1 ≤ num_clients`. -/
theorem create_federated_splits_flatten {α : Type} (samples : List α) (k : ℕ) (hk : 1 ≤ k)
    (ss : List (List α)) (h : create_federated_splits samples k = .ok ss) :
    ss.flatten = samples := by
  have hk0 : k ≠ 0 := Nat.one_le_iff_ne_zero.mp hk
  obtain ⟨cs, hcs⟩ : ∃ c : ℕ, samples.length / k = c := ⟨_, rfl⟩
  have hss : ss = (List.range k).map (fun i =>
      (samples.drop (i * cs)).take
        ((if i = k - 1 then samples.length else (i + 1) * cs) - i * cs)) := by
    unfold create_federated_splits at h
    rw [if_neg hk0] at h
    injection h with h2
    rw [← h2, hcs]
  subst hss
  obtain ⟨m, rfl⟩ : ∃ m, k = m + 1 := ⟨k - 1, (Nat.succ_pred_eq_of_pos hk).symm⟩
  rw [List.range_succ, List.map_append, List.flatten_append]
  have hcong : ∀ i ∈ List.range m,
      (samples.drop (i * cs)).take ((if i = m + 1 - 1 then samples.length
          else (i + 1) * cs) - i * cs) =
        (samples.drop (i * cs)).take cs := by
    intro i hi
    have him : i < m := List.mem_range.mp hi
    rw [if_neg (show ¬ i = m + 1 - 1 by omega)]
    have h3 : (i + 1) * cs = i * cs + cs := Nat.succ_mul i cs
    rw [h3]
    congr 1
    omega
  rw [List.map_congr_left hcong, blocks_flatten]
  simp only [List.map_cons, List.map_nil, List.flatten_cons, List.flatten_nil,
    List.append_nil]
  rw [if_pos (show m = m + 1 - 1 from rfl)]
  have hdroplen : (samples.drop (m * cs)).length = samples.length - m * cs :=
    List.length_drop _ _
  rw [List.take_of_length_le (le_of_eq hdroplen)]
  exact List.take_append_drop (m * cs) samples

/-- C5: for `1 ≤ num_clients ≤ len`, `create_federated_splits` on a shuffled
index list returns exactly `num_clients` shards that are pairwise disjoint
and jointly cover every sample index exactly once; each of the first
`num_clients - 1` shards has exactly `len // num_clients` elements and the
last shard absorbs the remainder. -/
theorem create_federated_splits_partition (indices : List ℕ) (L k : ℕ)
    (hperm : indices.Perm (List.range L)) (hk1 : 1 ≤ k) (hkL : k ≤ L) :
    ∃ ss : List (List ℕ),
      create_federated_splits indices k = .ok ss ∧
      ss.length = k ∧
      ss.flatten.Perm (List.range L) ∧
      List.Pairwise List.Disjoint ss ∧
      (∀ i : ℕ, i < k - 1 → (ss.getD i []).length = L / k) ∧
      (ss.getD (k - 1) []).length = L - (k - 1) * (L / k) := by
  have hk0 : k ≠ 0 := Nat.one_le_iff_ne_zero.mp hk1
  have hlen : indices.length = L := by rw [hperm.length_eq, List.length_range]
  subst hlen
  obtain ⟨ss, hss⟩ : ∃ ss, create_federated_splits indices k = .ok ss :=
    ⟨_, by unfold create_federated_splits; rw [if_neg hk0]⟩
  have hflat : ss.flatten = indices := create_federated_splits_flatten indices k hk1 ss hss
  obtain ⟨cs, hcs⟩ : ∃ c : ℕ, indices.length / k = c := ⟨_, rfl⟩
  have hssval : ss = (List.range k).map (fun i =>
      (indices.drop (i * cs)).take
        ((if i = k - 1 then indices.length else (i + 1) * cs) - i * cs)) := by
    have h2 := hss
    unfold create_federated_splits at h2
    rw [if_neg hk0] at h2
    injection h2 with h3
    rw [← h3, hcs]
  have hcsk : k * cs ≤ indices.length := by
    rw [← hcs, Nat.mul_comm]
    exact Nat.div_mul_le_self indices.length k
  refine ⟨ss, hss, ?_, ?_, ?_, ?_, ?_⟩
  · rw [hssval]; simp
  · rw [hflat]; exact hperm
  · have hnodup : ss.flatten.Nodup := by
      rw [hflat]
      exact hperm.nodup_iff.mpr (List.nodup_range indices.length)
    exact (List.nodup_flatten.mp hnodup).2
  · intro i hik
    rw [hcs, hssval, getD_map_range _ _ _ _ (show i < k by omega)]
    rw [if_neg (show ¬ i = k - 1 by omega)]
    have hmul : (i + 1) * cs = i * cs + cs := Nat.succ_mul i cs
    have hbound : (i + 1) * cs ≤ indices.length :=
      le_trans (Nat.mul_le_mul_right cs (show i + 1 ≤ k by omega)) hcsk
    rw [hmul] at hbound ⊢
    rw [List.length_take, List.length_drop]
    omega
  · rw [hcs, hssval, getD_map_range _ _ _ _ (show k - 1 < k by omega)]
    rw [if_pos rfl]
    have hbound : (k - 1) * cs ≤ indices.length :=
      le_trans (Nat.mul_le_mul_right cs (show k - 1 ≤ k by omega)) hcsk
    rw [List.length_take, List.length_drop]
    omega

/-- C5 witness: the shuffled index list `[2, 0, 1]` of a 3-sample dataset
split across 2 clients satisfies the partition theorem. -/
theorem create_federated_splits_partition_witness :
    ([2, 0, 1] : List ℕ).Perm (List.range 3) ∧ (1 : ℕ) ≤ 2 ∧ (2 : ℕ) ≤ 3 ∧
      ∃ ss : List (List ℕ),
        create_federated_splits [2, 0, 1] 2 = .ok ss ∧
        ss.length = 2 ∧
        ss.flatten.Perm (List.range 3) ∧
        List.Pairwise List.Disjoint ss ∧
        (∀ i : ℕ, i < 2 - 1 → (ss.getD i []).length = 3 / 2) ∧
        (ss.getD (2 - 1) []).length = 3 - (2 - 1) * (3 / 2) :=
  ⟨by decide, by decide, by decide,
    create_federated_splits_partition [2, 0, 1] 3 2 (by decide) (by decide) (by decide)⟩

/-- C6 counterexample: with 3 samples and `num_clients = 5 > 3`,
`create_federated_splits` does not fail at all — it silently returns five
shards, the first four empty and the last holding every sample. -/
theorem create_federated_splits_no_config_error_cex :
    create_federated_splits ([0, 1, 2] : List ℕ) 5 = .ok [[], [], [], [], [0, 1, 2]] ∧
      ([0, 1, 2] : List ℕ).length < 5 := by
  constructor
  · rfl
  · decide

/-- C6 amended: `create_federated_splits` performs no validation of
`num_clients`.  With `num_clients = 0` the floor division raises a
`ZeroDivisionError` (not a ConfigError); with `num_clients` larger than the
number of samples it silently returns `num_clients` shards, all empty except
the last, which holds the entire dataset. -/
theorem create_federated_splits_no_validation {α : Type} (samples : List α) (k : ℕ)
    (hk : samples.length < k) :
    create_federated_splits samples 0 =
      .error "ZeroDivisionError: integer division or modulo by zero" ∧
    create_federated_splits samples k =
      .ok ((List.range k).map (fun i => if i = k - 1 then samples else [])) := by
  constructor
  · unfold create_federated_splits
    rw [if_pos rfl]
  · have hk0 : k ≠ 0 := by omega
    have hdiv : samples.length / k = 0 := Nat.div_eq_of_lt hk
    unfold create_federated_splits
    rw [if_neg hk0]
    congr 1
    apply List.map_congr_left
    intro i hi
    rw [hdiv]
    by_cases hik : i = k - 1
    · rw [if_pos hik, if_pos hik]
      simp [List.take_of_length_le]
    · rw [if_neg hik, if_neg hik]
      simp

/-- C6 witness: the amended behavior at 3 samples and 5 requested clients. -/
theorem create_federated_splits_no_validation_witness :
    ([0, 1, 2] : List ℕ).length < 5 ∧
      (create_federated_splits ([0, 1, 2] : List ℕ) 0 =
        .error "ZeroDivisionError: integer division or modulo by zero" ∧
      create_federated_splits ([0, 1, 2] : List ℕ) 5 =
        .ok ((List.range 5).map (fun i => if i = 5 - 1 then [0, 1, 2] else []))) :=
  ⟨by decide, create_federated_splits_no_validation [0, 1, 2] 5 (by decide)⟩

/-! ### Client parameter installation (`SVSimulator.set_parameters`, lines 333-337)

    params_dict = zip(self.model.parameters(), parameters)
    for param, new_param in params_dict:
        param.data = torch.tensor(new_param, dtype=param.dtype, device=param.device)

`param.data = ...` replaces a parameter tensor unconditionally (PyTorch does
not validate shapes on `.data` assignment), and `zip` truncates at the
shorter sequence. -/

/-- A numeric tensor: its shape and its (flattened) entries. -/
structure Tensor where
  shape : List ℕ
  data : List ℚ
deriving DecidableEq, Repr

/-- `SVSimulator.set_parameters`: positionally overwrites the model's
parameter tensors with the given ones; `zip` stops at the shorter list and
parameters beyond it keep their old value. -/
def set_parameters : List Tensor → List Tensor → List Tensor
  | [], _ => []
  | ps, [] => ps
  | _p :: ps, q :: qs => q :: set_parameters ps qs

/-- C7 counterexample: `set_parameters` installs a tensor whose shape
differs from the model's own parameter shape, without any failure. -/
theorem set_parameters_no_shape_check_cex :
    set_parameters [⟨[2], [1, 2]⟩] [⟨[3], [5, 6, 7]⟩] = [⟨[3], [5, 6, 7]⟩] ∧
      (⟨[3], [5, 6, 7]⟩ : Tensor).shape ≠ (⟨[2], [1, 2]⟩ : Tensor).shape := by
  constructor
  · rfl
  · decide

/-- C7 amended: `set_parameters` performs no shape validation at all.  It
always succeeds, overwriting parameter `i` with the `i`-th given tensor for
every `i` below both lengths (regardless of shape), keeping parameters
beyond the given list unchanged, and ignoring surplus given tensors. -/
theorem set_parameters_overwrites_positionally (ps qs : List Tensor) :
    (set_parameters ps qs).length = ps.length ∧
    (∀ i : ℕ, i < ps.length → i < qs.length →
      (set_parameters ps qs).getD i ⟨[], []⟩ = qs.getD i ⟨[], []⟩) ∧
    (∀ i : ℕ, qs.length ≤ i →
      (set_parameters ps qs).getD i ⟨[], []⟩ = ps.getD i ⟨[], []⟩) := by
  induction ps generalizing qs with
  | nil =>
    refine ⟨by cases qs <;> rfl, ?_, ?_⟩
    · intro i hi
      simp at hi
    · intro i hi
      cases qs <;> rfl
  | cons p ps ih =>
    cases qs with
    | nil => exact ⟨rfl, fun i _ hiq => absurd hiq (by simp), fun i _ => rfl⟩
    | cons q qs =>
      obtain ⟨ihlen, ihset, ihkeep⟩ := ih qs
      refine ⟨?_, ?_, ?_⟩
      · simpa [set_parameters] using ihlen
      · intro i hip hiq
        cases i with
        | zero => rfl
        | succ n =>
          simp only [List.length_cons, Nat.succ_lt_succ_iff] at hip hiq
          simpa [set_parameters, List.getD] using ihset n hip hiq
      · intro i hi
        cases i with
        | zero => simp at hi
        | succ n =>
          simp only [List.length_cons, Nat.succ_le_succ_iff] at hi
          simpa [set_parameters, List.getD] using ihkeep n hi

/-- C7 amended witness: a model with two parameter tensors given one
replacement of mismatched shape — the first is overwritten with the
mismatched tensor, the second keeps its old value. -/
theorem set_parameters_overwrites_positionally_witness :
    ((0 : ℕ) < ([⟨[2], [1, 2]⟩, ⟨[2, 2], [1, 2, 3, 4]⟩] : List Tensor).length ∧
      (0 : ℕ) < ([⟨[3], [5, 6, 7]⟩] : List Tensor).length ∧
      ([⟨[3], [5, 6, 7]⟩] : List Tensor).length ≤ 1) ∧
    (set_parameters [⟨[2], [1, 2]⟩, ⟨[2, 2], [1, 2, 3, 4]⟩] [⟨[3], [5, 6, 7]⟩]).getD 0 ⟨[], []⟩ =
      ([⟨[3], [5, 6, 7]⟩] : List Tensor).getD 0 ⟨[], []⟩ ∧
    (set_parameters [⟨[2], [1, 2]⟩, ⟨[2, 2], [1, 2, 3, 4]⟩] [⟨[3], [5, 6, 7]⟩]).getD 1 ⟨[], []⟩ =
      ([⟨[2], [1, 2]⟩, ⟨[2, 2], [1, 2, 3, 4]⟩] : List Tensor).getD 1 ⟨[], []⟩ :=
  ⟨⟨by decide, by decide, by decide⟩,
    (set_parameters_overwrites_positionally [⟨[2], [1, 2]⟩, ⟨[2, 2], [1, 2, 3, 4]⟩]
      [⟨[3], [5, 6, 7]⟩]).2.1 0 (by decide) (by decide),
    (set_parameters_overwrites_positionally [⟨[2], [1, 2]⟩, ⟨[2, 2], [1, 2, 3, 4]⟩]
      [⟨[3], [5, 6, 7]⟩]).2.2 1 (by decide)⟩

/-! ### The `FundraisingPredictor` network

Architecture (identical in `train_federated.py` and `model_loader.py`):
each hidden layer is `Linear -> ReLU -> Dropout(dropout_rate)`, the output
layer is `Linear(prev, 1) -> Sigmoid`.  A linear layer is a weight matrix
plus a bias vector; dropout in training mode zeroes masked entries and
rescales kept entries by `1/(1-p)` (PyTorch inverted dropout), and is the
identity in eval mode.  The sigmoid is kept abstract as a parameter
`σ : ℚ → ℚ`. -/

/-- One `nn.Linear` layer: weight matrix (rows) and bias vector. -/
structure Layer where
  weight : List (List ℚ)
  bias : List ℚ
deriving DecidableEq, Repr

/-- Dot product of two rational vectors. -/
def dotQ (a b : List ℚ) : ℚ := (List.zipWith (fun x y => x * y) a b).sum

/-- `nn.Linear` forward: `W x + b`. -/
def linearQ (l : Layer) (x : List ℚ) : List ℚ :=
  List.zipWith (fun row b => dotQ row x + b) l.weight l.bias

/-- `nn.ReLU` forward, elementwise `max 0`. -/
def reluQ (x : List ℚ) : List ℚ := x.map (fun v => max 0 v)

/-- `nn.Dropout` forward: in training mode, entry `i` is kept (scaled by
`1/(1-p)`) or zeroed according to the Bernoulli mask; in eval mode the
input passes through unchanged. -/
def dropoutQ (training : Bool) (p : ℚ) (mask : List Bool) (x : List ℚ) : List ℚ :=
  if training then List.zipWith (fun keep v => if keep then v / (1 - p) else 0) mask x
  else x

/-- Forward pass of the `FundraisingPredictor` network over its layer list
(hidden layers followed by the output layer): hidden layers apply
`Linear -> ReLU -> Dropout`, the final layer applies `Linear -> Sigmoid`
(`σ`).  `masks` supplies one dropout mask per hidden layer (the random
state; unused in eval mode). -/
def forwardNet (training : Bool) (p : ℚ) (σ : ℚ → ℚ) :
    List (List Bool) → List Layer → List ℚ → List ℚ
  | _, [], x => x
  | _, [l], x => (linearQ l x).map σ
  | masks, l :: l2 :: ls, x =>
      forwardNet training p σ masks.tail (l2 :: ls)
        (dropoutQ training p (masks.headD []) (reluQ (linearQ l x)))

/-- In eval mode (`training = false`) the forward pass is independent of
the dropout masks: dropout is the identity. -/
theorem forwardNet_eval_mask_free (p : ℚ) (σ : ℚ → ℚ) (ls : List Layer) :
    ∀ (m1 m2 : List (List Bool)) (x : List ℚ),
      forwardNet false p σ m1 ls x = forwardNet false p σ m2 ls x := by
  induction ls with
  | nil => intro m1 m2 x; rfl
  | cons l ls ih =>
    cases ls with
    | nil => intro m1 m2 x; rfl
    | cons l2 ls2 =>
      intro m1 m2 x
      simp only [forwardNet, dropoutQ, if_neg (by decide : ¬ false = true)]
      exact ih m1.tail m2.tail _

/-! ### Model persistence (`save_model` lines 396-432, `load_model` lines 435-471)

`save_model` writes `{model_state_dict, model_config}` to `model_path` via
`torch.save` and pickles the scaler to `scaler_path`; `load_model`
reconstructs a `FundraisingPredictor` from the persisted `model_config`,
loads the state dict into it (which fails if shapes disagree with the
reconstructed architecture) and unpickles the scaler.  The file system is a
path-indexed store. -/

/-- Architecture configuration persisted in the checkpoint
(`model_config`). -/
structure ModelConfig where
  input_size : ℕ
  hidden_sizes : List ℕ
  dropout_rate : ℚ
deriving DecidableEq, Repr

/-- A `FundraisingPredictor` instance: its architecture configuration and
its parameter state (one `Layer` per `nn.Linear`, hidden layers then the
output layer). -/
structure FundraisingPredictor where
  cfg : ModelConfig
  layers : List Layer
deriving DecidableEq

/-- A fitted `sklearn` `StandardScaler`: per-feature mean and scale. -/
structure StandardScaler where
  mean : List ℚ
  scale : List ℚ
deriving DecidableEq, Repr

/-- `StandardScaler.transform` on a single row: `(x - mean) / scale`. -/
def StandardScaler.transform (s : StandardScaler) (x : List ℚ) : List ℚ :=
  (x.zip (s.mean.zip s.scale)).map (fun p => (p.1 - p.2.1) / p.2.2)

/-- The checkpoint dict written by `torch.save`. -/
structure Checkpoint where
  model_state_dict : List Layer
  model_config : ModelConfig
deriving DecidableEq

/-- Contents of a file on disk: a torch checkpoint, a pickled scaler, or
bytes that fail to deserialize. -/
inductive FileData
  | checkpointFile (cp : Checkpoint)
  | scalerFile (s : StandardScaler)
  | corruptFile
deriving DecidableEq

/-- A path-indexed file store (`None` = file absent). -/
def FS : Type := String → Option FileData

/-- The `(out_features, in_features)` dimensions of each `nn.Linear` built
by the `FundraisingPredictor` constructor from a configuration. -/
def layerDims (cfg : ModelConfig) : List (ℕ × ℕ) :=
  (cfg.hidden_sizes ++ [1]).zip (cfg.input_size :: cfg.hidden_sizes)

/-- Whether a persisted layer's tensors match the `(out, in)` dimensions of
the corresponding freshly constructed `nn.Linear`
(`load_state_dict` shape check). -/
def layerMatchesDim (d : ℕ × ℕ) (l : Layer) : Bool :=
  decide (l.weight.length = d.1) && l.weight.all (fun row => decide (row.length = d.2)) &&
    decide (l.bias.length = d.1)

/-- `load_state_dict` succeeds iff the persisted state dict has exactly the
layer tensors, with matching shapes, of the architecture rebuilt from the
persisted configuration. -/
def state_dict_matches (cfg : ModelConfig) (sd : List Layer) : Bool :=
  decide (sd.length = (layerDims cfg).length) &&
    ((layerDims cfg).zip sd).all (fun p => layerMatchesDim p.1 p.2)

/-- `save_model`: writes the checkpoint (state dict + architecture config)
to `model_path` with `torch.save`, then pickles the scaler to
`scaler_path`.  The later write wins on path collision. -/
def save_model (model : FundraisingPredictor) (scaler : StandardScaler)
    (model_path scaler_path : String) (fs : FS) : FS :=
  fun p =>
    if p = scaler_path then some (.scalerFile scaler)
    else if p = model_path then some (.checkpointFile ⟨model.layers, model.cfg⟩)
    else fs p

/-- `load_model` (training service): `torch.load` the checkpoint,
reconstruct a `FundraisingPredictor` from the persisted `model_config`,
`load_state_dict` into it, and unpickle the scaler; any failure raises
(modelled as `Except.error`). -/
def load_model (model_path scaler_path : String) (fs : FS) :
    Except String (FundraisingPredictor × StandardScaler) :=
  match fs model_path with
  | some (.checkpointFile cp) =>
      if state_dict_matches cp.model_config cp.model_state_dict then
        match fs scaler_path with
        | some (.scalerFile s) => .ok (⟨cp.model_config, cp.model_state_dict⟩, s)
        | _ => .error "Error loading scaler"
      else .error "Error loading state dict"
  | _ => .error "Error loading model"

/-- C2: `load_model` on the two paths just written by `save_model`
reconstructs, from the persisted architecture config and scaler, a model
whose output on any probe input (any activation, any dropout-mask stream,
eval mode) differs from the saved model's output by at most `1e-6` — in
fact they are equal. -/
theorem save_load_roundtrip (fs : FS) (model : FundraisingPredictor)
    (scaler : StandardScaler) (model_path scaler_path : String)
    (hpaths : model_path ≠ scaler_path)
    (hwf : state_dict_matches model.cfg model.layers = true) :
    ∃ m2 : FundraisingPredictor,
      load_model model_path scaler_path (save_model model scaler model_path scaler_path fs) =
        .ok (m2, scaler) ∧
      m2.cfg = model.cfg ∧
      ∀ (σ : ℚ → ℚ) (masks : List (List Bool)) (x : List ℚ),
        |((forwardNet false m2.cfg.dropout_rate σ masks m2.layers x).getD 0 0) -
          ((forwardNet false model.cfg.dropout_rate σ masks model.layers x).getD 0 0)| ≤
          1 / 1000000 := by
  refine ⟨⟨model.cfg, model.layers⟩, ?_, rfl, ?_⟩
  · unfold load_model save_model
    rw [if_neg hpaths, if_pos rfl, if_pos rfl]
    simp only [hwf, if_pos]
  · intro σ masks x
    simp

/-- C2 witness: a concrete 2-input model with one hidden layer of width 2
round-trips through `save_model`/`load_model` at paths `"m"` and `"s"`. -/
theorem save_load_roundtrip_witness :
    (("m" : String) ≠ "s" ∧
      state_dict_matches ⟨2, [2], 1/5⟩
        [⟨[[1, 0], [0, 1]], [0, 0]⟩, ⟨[[1, 1]], [0]⟩] = true) ∧
    ∃ m2 : FundraisingPredictor,
      load_model "m" "s"
          (save_model ⟨⟨2, [2], 1/5⟩, [⟨[[1, 0], [0, 1]], [0, 0]⟩, ⟨[[1, 1]], [0]⟩]⟩
            ⟨[0, 0], [1, 1]⟩ "m" "s" (fun _ => none)) =
        .ok (m2, ⟨[0, 0], [1, 1]⟩) ∧
      m2.cfg = (⟨⟨2, [2], 1/5⟩, [⟨[[1, 0], [0, 1]], [0, 0]⟩, ⟨[[1, 1]], [0]⟩]⟩ :
        FundraisingPredictor).cfg ∧
      ∀ (σ : ℚ → ℚ) (masks : List (List Bool)) (x : List ℚ),
        |((forwardNet false m2.cfg.dropout_rate σ masks m2.layers x).getD 0 0) -
          ((forwardNet false (1/5 : ℚ) σ masks
            [⟨[[1, 0], [0, 1]], [0, 0]⟩, ⟨[[1, 1]], [0]⟩] x).getD 0 0)| ≤ 1 / 1000000 :=
  ⟨⟨by decide, by rfl⟩,
    save_load_roundtrip (fun _ => none)
      ⟨⟨2, [2], 1/5⟩, [⟨[[1, 0], [0, 1]], [0, 0]⟩, ⟨[[1, 1]], [0]⟩]⟩
      ⟨[0, 0], [1, 1]⟩ "m" "s" (by decide) (by rfl)⟩

/-! ### The prediction-service `ModelManager` (`model_loader.py`)

State: `self.model`, `self.scaler`, `self.metadata`, each `Optional`.
`load_model` checks file existence first (early `return False`, state
untouched), then loads inside a `try:` whose `except` clause sets all three
fields to `None` before returning `False`. -/

/-- `ModelMetadata` dataclass of `model_loader.py`. -/
structure ModelMetadata where
  model_path : String
  scaler_path : String
  input_size : ℕ
  hidden_sizes : List ℕ
  dropout_rate : ℚ
  load_timestamp : String
  device : String
deriving DecidableEq

/-- The mutable fields of the `ModelManager` singleton. -/
structure ModelManagerState where
  model : Option FundraisingPredictor
  scaler : Option StandardScaler
  metadata : Option ModelMetadata
deriving DecidableEq

/-- The state written by the `except` clause of `ModelManager.load_model`
(`self.model = None; self.scaler = None; self.metadata = None`). -/
def clearedState : ModelManagerState := ⟨none, none, none⟩

/-- `ModelManager.is_loaded`: model and scaler both present. -/
def ModelManager.is_loaded (st : ModelManagerState) : Bool :=
  st.model.isSome && st.scaler.isSome

/-- `ModelManager.load_model`: early `return False` (state untouched) when
either file is absent; otherwise `torch.load`, rebuild the architecture,
`load_state_dict`, and unpickle the scaler — on success all three fields
are swapped in and `True` is returned, and on any exception the `except`
clause clears all three fields and returns `False`.  `ts` and `dev` stand
for `datetime.now().isoformat()` and the torch device string. -/
def ModelManager.load_model (st : ModelManagerState) (fs : FS)
    (model_path scaler_path ts dev : String) : Bool × ModelManagerState :=
  match fs model_path, fs scaler_path with
  | none, _ => (false, st)
  | some _, none => (false, st)
  | some (.checkpointFile cp), some (.scalerFile s) =>
      if state_dict_matches cp.model_config cp.model_state_dict then
        (true, ⟨some ⟨cp.model_config, cp.model_state_dict⟩, some s,
          some ⟨model_path, scaler_path, cp.model_config.input_size,
            cp.model_config.hidden_sizes, cp.model_config.dropout_rate, ts, dev⟩⟩)
      else (false, clearedState)
  | some _, some _ => (false, clearedState)

/-- A concrete loaded manager state used as counterexample/witness input. -/
def loadedState : ModelManagerState :=
  ⟨some ⟨⟨2, [2], 1/5⟩, [⟨[[1, 0], [0, 1]], [0, 0]⟩, ⟨[[1, 1]], [0]⟩]⟩,
    some ⟨[0, 0], [1, 1]⟩,
    some ⟨"m", "s", 2, [2], 1/5, "t0", "cpu"⟩⟩

/-- A store whose model file exists but holds corrupt bytes, with a valid
scaler file. -/
def corruptModelFS : FS :=
  fun p => if p = "m" then some .corruptFile
    else if p = "s" then some (.scalerFile ⟨[0, 0], [1, 1]⟩) else none

/-- C3 counterexample: with a model already loaded, a `load_model` call on
an existing-but-corrupt model file returns `False` but does NOT leave the
previous model untouched — the `except` clause clears model, scaler and
metadata, so `is_loaded` flips from `True` to `False`. -/
theorem modelmanager_load_failure_clears_cex :
    ModelManager.is_loaded loadedState = true ∧
    (ModelManager.load_model loadedState corruptModelFS "m" "s" "t1" "cpu").1 = false ∧
    (ModelManager.load_model loadedState corruptModelFS "m" "s" "t1" "cpu").2 ≠ loadedState ∧
    ModelManager.is_loaded
      (ModelManager.load_model loadedState corruptModelFS "m" "s" "t1" "cpu").2 = false := by
  refine ⟨rfl, rfl, ?_, rfl⟩
  intro h
  have h2 : clearedState = loadedState := h
  simp [clearedState, loadedState] at h2

/-- C3 amended: a failing `ModelManager.load_model` returns `False`; if the
failure is a missing model or scaler file the previous state is untouched
(so a previously loaded model keeps serving), but if both files exist and
loading fails (corrupt or architecture-mismatched artifact) the `except`
clause clears model, scaler and metadata, leaving `is_loaded` false. -/
theorem modelmanager_load_failure_behavior (st : ModelManagerState) (fs : FS)
    (model_path scaler_path ts dev : String) :
    ((fs model_path = none ∨ fs scaler_path = none) →
      ModelManager.load_model st fs model_path scaler_path ts dev = (false, st)) ∧
    (fs model_path ≠ none → fs scaler_path ≠ none →
      (ModelManager.load_model st fs model_path scaler_path ts dev).1 = false →
      (ModelManager.load_model st fs model_path scaler_path ts dev).2 = clearedState) := by
  constructor
  · intro h
    rcases h with h | h
    · simp [ModelManager.load_model, h]
    · cases hm : fs model_path with
      | none => simp [ModelManager.load_model, hm]
      | some d => simp [ModelManager.load_model, hm, h]
  · intro hm hs hfail
    cases hmv : fs model_path with
    | none => exact absurd hmv hm
    | some dm =>
      cases hsv : fs scaler_path with
      | none => exact absurd hsv hs
      | some ds =>
        cases dm with
        | checkpointFile cp =>
          cases ds with
          | checkpointFile cp2 => simp [ModelManager.load_model, hmv, hsv]
          | scalerFile s =>
            by_cases hmatch : state_dict_matches cp.model_config cp.model_state_dict = true
            · simp [ModelManager.load_model, hmv, hsv, hmatch] at hfail
            · simp [ModelManager.load_model, hmv, hsv, hmatch]
          | corruptFile => simp [ModelManager.load_model, hmv, hsv]
        | scalerFile s => simp [ModelManager.load_model, hmv, hsv]
        | corruptFile => simp [ModelManager.load_model, hmv, hsv]

/-- C3 amended witness: a missing-file failure leaves the loaded state
untouched. -/
theorem modelmanager_load_failure_behavior_witness :
    (((fun _ => none : FS) "m" = none ∨ (fun _ => none : FS) "s" = none) ∧
      ModelManager.load_model loadedState (fun _ => none) "m" "s" "t1" "cpu" =
        (false, loadedState)) :=
  ⟨Or.inl rfl,
    (modelmanager_load_failure_behavior loadedState (fun _ => none) "m" "s" "t1" "cpu").1
      (Or.inl rfl)⟩

/-! ### `ModelManager.predict` (`model_loader.py`, lines 185-236)

Order of checks in the code: `is_loaded()` (raises `ValueError` "Model not
loaded"), then feature count against `self.metadata.input_size` (raises
`ValueError`), then NaN/Inf on the numpy array (raises `ValueError`,
re-wrapped by the `except` clause as another `ValueError`).  The method
never assigns to `self.*`, so the manager state is returned unchanged. -/

/-- An IEEE value as Python sees it: a finite number, NaN, or an
infinity. -/
inductive PyFloat
  | val (q : ℚ)
  | nan
  | inf
  | ninf
deriving DecidableEq, Repr

/-- `np.isnan(x) or np.isinf(x)` for a single value. -/
def PyFloat.isNanOrInf : PyFloat → Bool
  | .val _ => false
  | _ => true

/-- Numeric value of a finite `PyFloat` (unused on NaN/Inf, which are
rejected before any arithmetic). -/
def PyFloat.toRat : PyFloat → ℚ
  | .val q => q
  | _ => 0

/-- The exception raised by a failed `predict` call. -/
inductive PredictError
  | notLoaded
  | wrongLength
  | nonFiniteFeatures
  | attributeError
deriving DecidableEq, Repr

/-- Whether the exception is a `ValueError` (the code's validation error):
all three validation failures are `ValueError`; only the unreachable
missing-metadata access would be an `AttributeError`. -/
def PredictError.isValueError : PredictError → Bool
  | .attributeError => false
  | _ => true

/-- `ModelManager.predict`: validates, scales with the loaded scaler, runs
the model forward in eval mode under `no_grad`, and returns the score with
the scaled-feature echo.  The manager state is never mutated, so it is
returned alongside.  `σ` is the sigmoid. -/
def ModelManager.predict (σ : ℚ → ℚ) (st : ModelManagerState) (features : List PyFloat) :
    Except PredictError (ℚ × List ℚ) × ModelManagerState :=
  match st.model, st.scaler, st.metadata with
  | some m, some s, some md =>
      if features.length ≠ md.input_size then (.error .wrongLength, st)
      else if features.any PyFloat.isNanOrInf then (.error .nonFiniteFeatures, st)
      else
        (.ok ((forwardNet false m.cfg.dropout_rate σ []
          m.layers (s.transform (features.map PyFloat.toRat))).getD 0 0,
          s.transform (features.map PyFloat.toRat)), st)
  | some _, some _, none => (.error .attributeError, st)
  | _, _, _ => (.error .notLoaded, st)

/-- Reachability invariant of the manager: whenever model and scaler are
both loaded, metadata has been set too (true initially — nothing loaded —
and preserved by `load_model`, which sets or clears all three fields
together). -/
def mmWellFormed (st : ModelManagerState) : Prop :=
  ModelManager.is_loaded st = true → st.metadata.isSome = true

/-- `input_size` of the loaded architecture, read from the metadata as the
code does (`self.metadata.input_size`). -/
def mmInputSize (st : ModelManagerState) : ℕ :=
  match st.metadata with
  | some md => md.input_size
  | none => 0

/-- C4: on a well-formed manager state, `predict` raises a `ValueError`
whenever the runtime is not ready, the feature count mismatches the loaded
architecture's input size, or a feature is NaN/infinite; in every case the
state is returned unchanged and `is_loaded` afterwards equals its value
before the call. -/
theorem predict_validation_errors (σ : ℚ → ℚ) (st : ModelManagerState)
    (features : List PyFloat) (hwf : mmWellFormed st)
    (hbad : ModelManager.is_loaded st = false ∨ features.length ≠ mmInputSize st ∨
      features.any PyFloat.isNanOrInf = true) :
    (∃ e : PredictError, (ModelManager.predict σ st features).1 = .error e ∧
      e.isValueError = true) ∧
    (ModelManager.predict σ st features).2 = st ∧
    ModelManager.is_loaded (ModelManager.predict σ st features).2 =
      ModelManager.is_loaded st := by
  obtain ⟨om, os, omd⟩ := st
  cases om with
  | none =>
    exact ⟨⟨.notLoaded, by cases os <;> cases omd <;> rfl, rfl⟩,
      by cases os <;> cases omd <;> rfl, by cases os <;> cases omd <;> rfl⟩
  | some m =>
    cases os with
    | none =>
      exact ⟨⟨.notLoaded, by cases omd <;> rfl, rfl⟩,
        by cases omd <;> rfl, by cases omd <;> rfl⟩
    | some s =>
      cases omd with
      | none =>
        have : (⟨some m, some s, none⟩ : ModelManagerState).metadata.isSome = true :=
          hwf rfl
        simp at this
      | some md =>
        have hloaded : ModelManager.is_loaded ⟨some m, some s, some md⟩ = true := rfl
        rcases hbad with hb | hb | hb
        · rw [hloaded] at hb
          exact absurd hb (by simp)
        · have hlen : features.length ≠ md.input_size := hb
          refine ⟨⟨.wrongLength, ?_, rfl⟩, ?_, ?_⟩
          · simp [ModelManager.predict, if_pos hlen]
          · simp [ModelManager.predict, if_pos hlen]
          · simp [ModelManager.predict, if_pos hlen]
        · by_cases hlen : features.length = md.input_size
          · refine ⟨⟨.nonFiniteFeatures, ?_, rfl⟩, ?_, ?_⟩
            · simp [ModelManager.predict, hlen, hb]
            · simp [ModelManager.predict, hlen, hb]
            · simp [ModelManager.predict, hlen, hb]
          · refine ⟨⟨.wrongLength, ?_, rfl⟩, ?_, ?_⟩
            · simp [ModelManager.predict, if_pos hlen]
            · simp [ModelManager.predict, if_pos hlen]
            · simp [ModelManager.predict, if_pos hlen]

/-- C4 witness: on the concrete loaded state, `predict [1, 2, 3]` (wrong
length for the 2-input architecture) raises a `ValueError` and leaves the
state, and `is_loaded`, unchanged. -/
theorem predict_validation_errors_witness :
    (mmWellFormed loadedState ∧
      (ModelManager.is_loaded loadedState = false ∨
        ([PyFloat.val 1, PyFloat.val 2, PyFloat.val 3] : List PyFloat).length ≠
          mmInputSize loadedState ∨
        ([PyFloat.val 1, PyFloat.val 2, PyFloat.val 3] : List PyFloat).any
          PyFloat.isNanOrInf = true)) ∧
    ((∃ e : PredictError,
      (ModelManager.predict id loadedState [PyFloat.val 1, PyFloat.val 2, PyFloat.val 3]).1 =
        .error e ∧ e.isValueError = true) ∧
    (ModelManager.predict id loadedState [PyFloat.val 1, PyFloat.val 2, PyFloat.val 3]).2 =
      loadedState ∧
    ModelManager.is_loaded
        (ModelManager.predict id loadedState [PyFloat.val 1, PyFloat.val 2, PyFloat.val 3]).2 =
      ModelManager.is_loaded loadedState) :=
  ⟨⟨by intro _; rfl, Or.inr (Or.inl (by decide))⟩,
    predict_validation_errors id loadedState [PyFloat.val 1, PyFloat.val 2, PyFloat.val 3]
      (by intro _; rfl) (Or.inr (Or.inl (by decide)))⟩

/-! ### Model evaluation (`evaluate_model`, `train_federated.py` lines 259-304)

The loop accumulates `total_loss += loss.item()` per batch (the criterion
— `nn.BCELoss` — averages over the batch), concatenates thresholded
predictions and targets across batches, and returns

    loss      = total_loss / len(val_loader)          (mean of batch means)
    accuracy  = accuracy_score(all_targets, all_predictions)
    precision = precision_score(..., zero_division=0)
    recall    = recall_score(..., zero_division=0)
    f1        = f1_score(..., zero_division=0)

The per-sample criterion value is abstracted as `lossFn`; the model forward
is abstracted as a function `f` on feature rows (it is deterministic in
eval mode, see `forwardNet_eval_mask_free`). -/

/-- A validation batch is a list of `(feature_row, target)` pairs. -/
abbrev Batch : Type := List (List ℚ × ℚ)

/-- `criterion(outputs, batch_y).item()` for one batch: the mean of the
per-sample criterion values (`nn.BCELoss` default mean reduction). -/
def per_batch_mean_loss (lossFn : ℚ → ℚ → ℚ) (f : List ℚ → ℚ) (b : Batch) : ℚ :=
  ((b.map (fun p => lossFn (f p.1) p.2)).sum) / b.length

/-- `(outputs > 0.5).float()` for one output. -/
def threshold (p : ℚ) : ℚ := if 1/2 < p then 1 else 0

/-- The concatenated `(prediction, target)` pairs over a shard. -/
def predsTargets (f : List ℚ → ℚ) (shard : Batch) : List (ℚ × ℚ) :=
  shard.map (fun p => (threshold (f p.1), p.2))

/-- `sklearn.metrics.accuracy_score`: fraction of matching pairs. -/
def accuracy_score (pairs : List (ℚ × ℚ)) : ℚ :=
  ((pairs.filter (fun q => q.1 == q.2)).length : ℚ) / pairs.length

/-- True positives for positive label `1`. -/
def tpCount (pairs : List (ℚ × ℚ)) : ℕ :=
  (pairs.filter (fun q => q.1 == 1 && q.2 == 1)).length

/-- False positives for positive label `1`. -/
def fpCount (pairs : List (ℚ × ℚ)) : ℕ :=
  (pairs.filter (fun q => q.1 == 1 && !(q.2 == 1))).length

/-- False negatives for positive label `1`. -/
def fnCount (pairs : List (ℚ × ℚ)) : ℕ :=
  (pairs.filter (fun q => !(q.1 == 1) && q.2 == 1)).length

/-- `precision_score(..., zero_division=0)`. -/
def precision_score (pairs : List (ℚ × ℚ)) : ℚ :=
  if tpCount pairs + fpCount pairs = 0 then 0
  else (tpCount pairs : ℚ) / (tpCount pairs + fpCount pairs)

/-- `recall_score(..., zero_division=0)`. -/
def recall_score (pairs : List (ℚ × ℚ)) : ℚ :=
  if tpCount pairs + fnCount pairs = 0 then 0
  else (tpCount pairs : ℚ) / (tpCount pairs + fnCount pairs)

/-- `f1_score(..., zero_division=0)` (`2TP / (2TP + FP + FN)`). -/
def f1_score (pairs : List (ℚ × ℚ)) : ℚ :=
  if 2 * tpCount pairs + fpCount pairs + fnCount pairs = 0 then 0
  else (2 * tpCount pairs : ℚ) / (2 * tpCount pairs + fpCount pairs + fnCount pairs)

/-- The metrics dict returned by `evaluate_model`. -/
structure EvalMetrics where
  loss : ℚ
  accuracy : ℚ
  precision : ℚ
  «recall» : ℚ
  f1 : ℚ
deriving DecidableEq, Repr

/-- `evaluate_model` over a batched validation loader: loss is the mean
over batches of the per-batch mean criterion value; the classification
metrics are computed on the predictions and targets concatenated across
all batches. -/
def evaluate_model (lossFn : ℚ → ℚ → ℚ) (f : List ℚ → ℚ)
    (batches : List Batch) : EvalMetrics :=
  { loss := ((batches.map (per_batch_mean_loss lossFn f)).sum) / batches.length
    accuracy := accuracy_score (predsTargets f batches.flatten)
    precision := precision_score (predsTargets f batches.flatten)
    «recall» := recall_score (predsTargets f batches.flatten)
    f1 := f1_score (predsTargets f batches.flatten) }

/-- Squared-error criterion used for the concrete counterexample (the
criterion is a parameter of `evaluate_model` in the code). -/
def exLoss (p y : ℚ) : ℚ := (p - y) ^ 2

/-- A concrete one-feature model for the counterexample. -/
def exF (x : List ℚ) : ℚ := x.getD 0 0

/-- A three-sample validation shard. -/
def exShard : Batch := [([1], 1), ([1], 1), ([2], 0)]

/-- C8 counterexample: two batchings of the same three-sample shard (one
batch of 3, versus batches of 2 and 1) yield different losses — `4/3`
(the mean over all samples) versus `2` — because the code averages
per-batch means over batches, so `evaluate_model` is NOT independent of
the batch size. -/
theorem evaluate_model_batch_dependent_cex :
    ([exShard] : List Batch).flatten =
      ([[([1], 1), ([1], 1)], [([2], 0)]] : List Batch).flatten ∧
    (evaluate_model exLoss exF [exShard]).loss = 4/3 ∧
    ((exShard.map (fun p => exLoss (exF p.1) p.2)).sum) / exShard.length = 4/3 ∧
    (evaluate_model exLoss exF [[([1], 1), ([1], 1)], [([2], 0)]]).loss = 2 ∧
    (evaluate_model exLoss exF [exShard]).loss ≠
      (evaluate_model exLoss exF [[([1], 1), ([1], 1)], [([2], 0)]]).loss := by
  refine ⟨rfl, ?_, ?_, ?_, ?_⟩
  · norm_num [evaluate_model, per_batch_mean_loss, exLoss, exF, exShard]
  · norm_num [exLoss, exF, exShard]
  · norm_num [evaluate_model, per_batch_mean_loss, exLoss, exF]
  · norm_num [evaluate_model, per_batch_mean_loss, exLoss, exF, exShard]

/-- C8 amended: the classification metrics (accuracy, precision, recall,
f1) of `evaluate_model` are computed on the full concatenated shard and are
therefore identical for any two batchings with the same concatenation; the
returned loss, however, is the mean over batches of the per-batch mean
criterion value (so it depends on the batching when batch sizes are
unequal, and equals the mean over all samples only in special cases such as
a single batch). -/
theorem evaluate_model_metrics_batch_independent (lossFn : ℚ → ℚ → ℚ)
    (f : List ℚ → ℚ) (B1 B2 : List Batch) (hflat : B1.flatten = B2.flatten) :
    (evaluate_model lossFn f B1).accuracy = (evaluate_model lossFn f B2).accuracy ∧
    (evaluate_model lossFn f B1).precision = (evaluate_model lossFn f B2).precision ∧
    (evaluate_model lossFn f B1).«recall» = (evaluate_model lossFn f B2).«recall» ∧
    (evaluate_model lossFn f B1).f1 = (evaluate_model lossFn f B2).f1 ∧
    (evaluate_model lossFn f B1).loss =
      ((B1.map (per_batch_mean_loss lossFn f)).sum) / B1.length ∧
    (evaluate_model lossFn f [B1.flatten]).loss =
      ((B1.flatten.map (fun p => lossFn (f p.1) p.2)).sum) / B1.flatten.length := by
  refine ⟨?_, ?_, ?_, ?_, rfl, ?_⟩
  · simp [evaluate_model, hflat]
  · simp [evaluate_model, hflat]
  · simp [evaluate_model, hflat]
  · simp [evaluate_model, hflat]
  · simp [evaluate_model, per_batch_mean_loss]

/-- C8 amended witness: the two concrete batchings of `exShard` share all
classification metrics. -/
theorem evaluate_model_metrics_batch_independent_witness :
    ([exShard] : List Batch).flatten =
        ([[([1], 1), ([1], 1)], [([2], 0)]] : List Batch).flatten ∧
    ((evaluate_model exLoss exF [exShard]).accuracy =
        (evaluate_model exLoss exF [[([1], 1), ([1], 1)], [([2], 0)]]).accuracy ∧
      (evaluate_model exLoss exF [exShard]).precision =
        (evaluate_model exLoss exF [[([1], 1), ([1], 1)], [([2], 0)]]).precision ∧
      (evaluate_model exLoss exF [exShard]).«recall» =
        (evaluate_model exLoss exF [[([1], 1), ([1], 1)], [([2], 0)]]).«recall» ∧
      (evaluate_model exLoss exF [exShard]).f1 =
        (evaluate_model exLoss exF [[([1], 1), ([1], 1)], [([2], 0)]]).f1 ∧
      (evaluate_model exLoss exF [exShard]).loss =
        (([exShard].map (per_batch_mean_loss exLoss exF)).sum) / ([exShard] : List Batch).length ∧
      (evaluate_model exLoss exF [([exShard] : List Batch).flatten]).loss =
        ((([exShard] : List Batch).flatten.map (fun p => exLoss (exF p.1) p.2)).sum) /
          ([exShard] : List Batch).flatten.length) :=
  ⟨rfl, evaluate_model_metrics_batch_independent exLoss exF [exShard]
    [[([1], 1), ([1], 1)], [([2], 0)]] rfl⟩

/-- C9: `evaluate_model` is deterministic given the model parameters and
the validation shard — the model runs in eval mode, where the forward pass
ignores the dropout-mask stream, so two invocations with different random
states (`m1`, `m2`) return identical metric dicts. -/
theorem evaluate_model_deterministic (σ : ℚ → ℚ) (p : ℚ) (layers : List Layer)
    (lossFn : ℚ → ℚ → ℚ) (m1 m2 : List (List Bool)) (batches : List Batch) :
    evaluate_model lossFn (fun x => (forwardNet false p σ m1 layers x).getD 0 0) batches =
      evaluate_model lossFn (fun x => (forwardNet false p σ m2 layers x).getD 0 0) batches := by
  have hf : (fun x => (forwardNet false p σ m1 layers x).getD 0 0) =
      (fun x => (forwardNet false p σ m2 layers x).getD 0 0) := by
    funext x
    rw [forwardNet_eval_mask_free p σ layers m1 m2 x]
  rw [hf]

/-! ### The `ModelManager` singleton (`model_loader.py`, lines 94-113, 273-279)

`ModelManager.__new__` stores the first instance in the class attribute
`_instance` and returns it for every later construction; `__init__` runs on
every `ModelManager()` call but is guarded by `_initialized`, so the fields
of the shared instance are reset only once.  `model_manager =
ModelManager()` at module import time is the instance `get_model_manager`
returns.  Object identity is modelled by numeric ids in a world holding the
class attribute, an allocation counter, each object's fields and each
object's `_initialized` flag. -/

/-- Pointwise update of a function at one key. -/
def updNat {α : Type} (f : ℕ → α) (i : ℕ) (a : α) : ℕ → α :=
  fun j => if j = i then a else f j

/-- The Python process state relevant to the singleton: the class attribute
`ModelManager._instance`, the allocator for fresh object ids, every
object's manager fields, and every object's `_initialized` flag. -/
structure PyWorld where
  instCell : Option ℕ
  nextId : ℕ
  heap : ℕ → ModelManagerState
  initFlag : ℕ → Bool

/-- `ModelManager.__new__`: returns the stored instance when
`_instance is not None`; otherwise allocates a fresh object (with
`_initialized = False`) and stores it in the class attribute. -/
def ModelManager.new (w : PyWorld) : ℕ × PyWorld :=
  match w.instCell with
  | some i => (i, w)
  | none =>
      (w.nextId,
        ⟨some w.nextId, w.nextId + 1, w.heap, updNat w.initFlag w.nextId false⟩)

/-- `ModelManager.__init__`: a no-op when `_initialized` is already set;
otherwise resets model/scaler/metadata to `None` and sets the flag. -/
def ModelManager.init (w : PyWorld) (i : ℕ) : PyWorld :=
  if w.initFlag i then w
  else ⟨w.instCell, w.nextId, updNat w.heap i clearedState, updNat w.initFlag i true⟩

/-- `ModelManager()`: `__new__` followed by `__init__` on its result. -/
def ModelManager.construct (w : PyWorld) : ℕ × PyWorld :=
  (ModelManager.new w).1 |> fun i => (i, ModelManager.init (ModelManager.new w).2 i)

/-- `n + 1` further `ModelManager()` calls after a given world, returning
the last constructed reference and the final world. -/
def constructN : ℕ → PyWorld → ℕ × PyWorld
  | 0, w => ModelManager.construct w
  | n + 1, w => constructN n (ModelManager.construct w).2

/-- After any `ModelManager()` call, the class attribute holds the returned
instance and its `_initialized` flag is set. -/
theorem construct_post (w : PyWorld) :
    (ModelManager.construct w).2.instCell = some (ModelManager.construct w).1 ∧
      (ModelManager.construct w).2.initFlag (ModelManager.construct w).1 = true := by
  cases hc : w.instCell with
  | none =>
    simp only [ModelManager.construct, ModelManager.new, hc]
    simp [ModelManager.init, updNat]
  | some i =>
    simp only [ModelManager.construct, ModelManager.new, hc]
    by_cases hf : w.initFlag i
    · simp [ModelManager.init, hf, hc]
    · simp [ModelManager.init, hf, updNat, hc]

/-- On a world whose class attribute holds an initialized instance,
`ModelManager()` returns that instance and changes nothing. -/
theorem construct_fix (w : PyWorld) (i : ℕ) (h1 : w.instCell = some i)
    (h2 : w.initFlag i = true) : ModelManager.construct w = (i, w) := by
  simp [ModelManager.construct, ModelManager.new, h1, ModelManager.init, h2]

/-- C10: the singleton protocol.  After the module-import construction
(`model_manager = ModelManager()`), every further `ModelManager()` call —
any number of them — returns the same instance id and leaves the world
(including the shared instance's fields) unchanged; hence a `load_model`
state written through any reference is read back through every other
reference. -/
theorem modelmanager_singleton (w : PyWorld) (n : ℕ) :
    (constructN n (ModelManager.construct w).2).1 = (ModelManager.construct w).1 ∧
    (constructN n (ModelManager.construct w).2).2 = (ModelManager.construct w).2 ∧
    ∀ st : ModelManagerState,
      updNat (ModelManager.construct w).2.heap
        (constructN n (ModelManager.construct w).2).1 st
        (ModelManager.construct w).1 = st := by
  obtain ⟨hcell, hflag⟩ := construct_post w
  have hfix : ∀ m : ℕ, constructN m (ModelManager.construct w).2 =
      ((ModelManager.construct w).1, (ModelManager.construct w).2) := by
    intro m
    induction m with
    | zero =>
      exact construct_fix (ModelManager.construct w).2 (ModelManager.construct w).1 hcell hflag
    | succ k ih =>
      show constructN k (ModelManager.construct (ModelManager.construct w).2).2 = _
      rw [construct_fix (ModelManager.construct w).2 (ModelManager.construct w).1 hcell hflag]
      exact ih
  refine ⟨by rw [hfix n], by rw [hfix n], ?_⟩
  intro st
  rw [hfix n]
  simp [updNat]

end SuperPage
